import Mathlib

/-!
Verification development for the wenum pipeline engine
(`src/wenum/fuzzqueues.py`, `src/wenum/runtime_session.py`,
`src/wenum/filters/complexfilter.py`).

Each Python function relevant to the checked properties is shallowly
embedded as an executable Lean definition; stateful code is embedded as
explicit state passing.  Network calls and other external effects are
passed in as explicit oracle arguments (an `Except` value standing for a
response or a raised exception).
-/

set_option maxRecDepth 4000

/-! ## Session priority counter (runtime_session.py)

`PRIORITY_STEP = 10` and `FuzzSession.assign_next_priority_level`, which
adds `PRIORITY_STEP` to `current_priority_level` and returns the new
value.  `current_priority_level` is set to `PRIORITY_STEP` in
`FuzzSession.__init__`. -/

def PRIORITY_STEP : Nat := 10

structure FuzzSessionState where
  current_priority_level : Nat
  deriving Repr, DecidableEq

/-- `FuzzSession.assign_next_priority_level`: increase the session-wide
counter by `PRIORITY_STEP` and return the increased value together with
the updated session state. -/
def assign_next_priority_level (s : FuzzSessionState) : Nat × FuzzSessionState :=
  let new_level := s.current_priority_level + PRIORITY_STEP
  (new_level, ⟨new_level⟩)

/-! ## Routing stage (fuzzqueues.py, RoutingQ.process)

For a `SEED` item, `RoutingQ.process` overwrites the item's priority
with `assign_next_priority_level()` and routes it to the seed queue.
A routing run is modelled as a fold over the sequence of routed seeds;
each routed seed names (by index) the live item it was derived from,
whose priority it carried when it entered routing.

Modelled from the spec: the initial `STARTSEED` item's priority and the
fact that every item created for a seed inherits that seed's priority
come from `fuzzobjects.py` / `myqueues.py`, which are not part of the
provided sources; spec sections 4.1 and 5 state that sibling items share
their seed's priority and the session counter starts at `PRIORITY_STEP`. -/

structure RoutingRun where
  session : FuzzSessionState
  /-- priorities of the items alive in the run; a routed seed points at
  the item it was derived from by its index in this list. -/
  item_priorities : List Nat
  /-- one entry per routed `SEED`, oldest first:
  (priority of the causing item, priority assigned by routing). -/
  routed : List (Nat × Nat)
  deriving Repr, DecidableEq

def initial_routing_run : RoutingRun :=
  { session := ⟨PRIORITY_STEP⟩
    item_priorities := [PRIORITY_STEP]
    routed := [] }

/-- One `RoutingQ.process` call on a `SEED` item derived from the live
item at `parent_idx`. -/
def route_seed (run : RoutingRun) (parent_idx : Nat) : RoutingRun :=
  let parent_priority := run.item_priorities.getD parent_idx PRIORITY_STEP
  let r := assign_next_priority_level run.session
  { session := r.2
    item_priorities := run.item_priorities ++ [r.1]
    routed := run.routed ++ [(parent_priority, r.1)] }

def run_routing (parents : List Nat) : RoutingRun :=
  parents.foldl route_seed initial_routing_run

/-- Invariant maintained across a routing run: the session counter is at
least `PRIORITY_STEP`, every live item's priority is bounded by the
counter, and every routed seed got a priority strictly above its
parent's. -/
def RoutingInv (run : RoutingRun) : Prop :=
  PRIORITY_STEP ≤ run.session.current_priority_level ∧
  (∀ p ∈ run.item_priorities, p ≤ run.session.current_priority_level) ∧
  (∀ pr ∈ run.routed, pr.1 < pr.2)

lemma routingInv_initial : RoutingInv initial_routing_run := by
  refine ⟨le_refl _, ?_, ?_⟩ <;> intro x hx <;> simp [initial_routing_run] at hx
  simp [hx, initial_routing_run]

lemma routingInv_step (run : RoutingRun) (i : Nat) (h : RoutingInv run) :
    RoutingInv (route_seed run i) := by
  obtain ⟨hstep, hitems, hrouted⟩ := h
  refine ⟨?_, ?_, ?_⟩
  · simp only [route_seed, assign_next_priority_level]
    omega
  · intro p hp
    simp only [route_seed, assign_next_priority_level, List.mem_append,
      List.mem_singleton] at hp ⊢
    rcases hp with hp | hp
    · exact le_trans (hitems p hp) (Nat.le_add_right _ _)
    · omega
  · intro pr hpr
    simp only [route_seed, assign_next_priority_level, List.mem_append,
      List.mem_singleton] at hpr
    rcases hpr with hpr | hpr
    · exact hrouted pr hpr
    · subst hpr
      simp only []
      have hparent : run.item_priorities.getD i PRIORITY_STEP ≤
          run.session.current_priority_level := by
        by_cases hi : i < run.item_priorities.length
        · rw [List.getD_eq_getElem _ _ hi]
          exact hitems _ (List.getElem_mem hi)
        · rw [List.getD_eq_default _ _ (Nat.le_of_not_lt hi)]
          exact hstep
      have : (0 : Nat) < PRIORITY_STEP := by decide
      omega

lemma routingInv_fold (parents : List Nat) (run : RoutingRun)
    (h : RoutingInv run) : RoutingInv (parents.foldl route_seed run) := by
  induction parents generalizing run with
  | nil => exact h
  | cons a as ih => exact ih _ (routingInv_step run a h)

/-- C1: for every `SEED` item processed by `RoutingQ.process` in a run,
the priority assigned to it via `assign_next_priority_level` is strictly
greater than the priority of the item the seed was derived from. -/
theorem routed_seed_priority_gt_parent (parents : List Nat)
    (pr : Nat × Nat) (h : pr ∈ (run_routing parents).routed) :
    pr.1 < pr.2 :=
  (routingInv_fold parents initial_routing_run routingInv_initial).2.2 pr h

theorem routed_seed_priority_gt_parent_witness :
    (10, 20) ∈ (run_routing [0]).routed ∧ (10 : Nat) < 20 :=
  ⟨by decide, routed_seed_priority_gt_parent [0] (10, 20) (by decide)⟩

/-- C5 counterexample: the claim says every routed seed's priority equals
its parent's priority plus `PRIORITY_STEP` regardless of other routed
seeds.  Routing two seeds from the same parent (the initial seed, with
priority 10) assigns priorities 20 and 30; the second seed's priority is
30, not 10 + 10. -/
theorem routed_seed_priority_not_parent_plus_step :
    ((run_routing [0, 0]).routed.getD 1 (0, 0)).2 ≠
      ((run_routing [0, 0]).routed.getD 1 (0, 0)).1 + PRIORITY_STEP := by
  decide

/-- Session-counter characterization helper: along a routing run the
counter equals `PRIORITY_STEP * (number of routed seeds + 1)` and the
i-th routed seed was assigned `PRIORITY_STEP * (i + 2)`. -/
def RoutingLevels (run : RoutingRun) : Prop :=
  run.session.current_priority_level = PRIORITY_STEP * (run.routed.length + 1) ∧
  ∀ i, i < run.routed.length →
    (run.routed.getD i (0, 0)).2 = PRIORITY_STEP * (i + 2)

lemma routingLevels_initial : RoutingLevels initial_routing_run := by
  constructor
  · decide
  · intro i hi
    simp [initial_routing_run] at hi

lemma routingLevels_step (run : RoutingRun) (j : Nat) (h : RoutingLevels run) :
    RoutingLevels (route_seed run j) := by
  obtain ⟨hlvl, hassigned⟩ := h
  constructor
  · simp only [route_seed, assign_next_priority_level, List.length_append,
      List.length_singleton]
    rw [hlvl]
    ring
  · intro i hi
    simp only [route_seed, assign_next_priority_level, List.length_append,
      List.length_singleton] at hi ⊢
    by_cases hlt : i < run.routed.length
    · rw [List.getD_append _ _ _ _ hlt]
      exact hassigned i hlt
    · have hieq : i = run.routed.length := by omega
      subst hieq
      rw [List.getD_eq_getElem _ _ (by simp)]
      rw [List.getElem_append_right (le_refl _)]
      simp [hlvl]
      ring

lemma routingLevels_fold (parents : List Nat) (run : RoutingRun)
    (h : RoutingLevels run) : RoutingLevels (parents.foldl route_seed run) := by
  induction parents generalizing run with
  | nil => exact h
  | cons a as ih => exact ih _ (routingLevels_step run a h)

/-- C5 amended: the priority assigned to the i-th seed routed in a run
is the session-wide counter value `PRIORITY_STEP * (i + 2)` — advanced
by `PRIORITY_STEP` once per routed seed, not relative to the parent —
and it is strictly greater than the priority of the item the seed was
derived from.  It equals the parent's priority plus `PRIORITY_STEP` only
when the parent's priority is the latest counter value. -/
theorem routed_seed_priority_is_session_counter (parents : List Nat) (i : Nat)
    (h : i < (run_routing parents).routed.length) :
    ((run_routing parents).routed.getD i (0, 0)).2 = PRIORITY_STEP * (i + 2) ∧
    ((run_routing parents).routed.getD i (0, 0)).1 <
      ((run_routing parents).routed.getD i (0, 0)).2 := by
  constructor
  · exact (routingLevels_fold parents initial_routing_run routingLevels_initial).2 i h
  · have hmem : (run_routing parents).routed.getD i (0, 0) ∈
        (run_routing parents).routed := by
      rw [List.getD_eq_getElem _ _ h]
      exact List.getElem_mem h
    exact (routingInv_fold parents initial_routing_run routingInv_initial).2.2 _ hmem

theorem routed_seed_priority_is_session_counter_witness :
    (1 < (run_routing [0, 0]).routed.length) ∧
    ((run_routing [0, 0]).routed.getD 1 (0, 0)).2 = PRIORITY_STEP * (1 + 2) ∧
    ((run_routing [0, 0]).routed.getD 1 (0, 0)).1 <
      ((run_routing [0, 0]).routed.getD 1 (0, 0)).2 :=
  ⟨by decide, routed_seed_priority_is_session_counter [0, 0] 1 (by decide)⟩

/-! ## False-positive probe (fuzzqueues.py, RecursiveQ.false_positive_hit)

`RecursiveQ._get_response_tuple` performs a GET request and returns
`(status_code, word_count)`; any network exception propagates to
`false_positive_hit`, which catches it.  The two probe requests are
embedded as oracle arguments of type `Except Unit (Int × Nat)`:
`.error ()` stands for a raised exception, `.ok (status, words)` for the
parsed response tuple.  The second oracle is consulted only on the code
path that issues a second probe. -/

structure ProbeSeed where
  code : Int
  words : Nat
  deriving Repr, DecidableEq

/-- `RecursiveQ.false_positive_hit`: returns `true` when the candidate
is judged a false positive, `false` when it is a legitimate hit. -/
def false_positive_hit (seed : ProbeSeed)
    (junk_response : Except Unit (Int × Nat))
    (second_junk_response : Except Unit (Int × Nat)) : Bool :=
  match junk_response with
  | .error _ => false
  | .ok junk_response_tuple =>
    if junk_response_tuple.1 == seed.code && junk_response_tuple.2 == seed.words then
      true
    else if junk_response_tuple.1 != seed.code then
      false
    else
      match second_junk_response with
      | .error _ => false
      | .ok second_junk_response_tuple =>
        !(second_junk_response_tuple.1 == junk_response_tuple.1 &&
          second_junk_response_tuple.2 == junk_response_tuple.2)

/-- C3: the probe verdict table.  Equal status and equal word count on
the first probe means false positive; a different status means real hit;
equal status with different word count consults a second probe, and the
candidate is a real hit exactly when the second probe matches the first
in status and word count. -/
theorem false_positive_hit_verdicts (seed : ProbeSeed) (t1 t2 : Int × Nat) :
    ((t1.1 = seed.code ∧ t1.2 = seed.words) →
      ∀ p2, false_positive_hit seed (.ok t1) p2 = true) ∧
    (t1.1 ≠ seed.code →
      ∀ p2, false_positive_hit seed (.ok t1) p2 = false) ∧
    (t1.1 = seed.code → t1.2 ≠ seed.words →
      (false_positive_hit seed (.ok t1) (.ok t2) = false ↔
        (t2.1 = t1.1 ∧ t2.2 = t1.2))) := by
  refine ⟨?_, ?_, ?_⟩
  · rintro ⟨h1, h2⟩ p2
    simp [false_positive_hit, h1, h2]
  · intro h p2
    simp [false_positive_hit, h]
  · intro h1 h2
    simp [false_positive_hit, h1, h2]

theorem false_positive_hit_verdicts_witness :
    false_positive_hit ⟨200, 42⟩ (.ok (200, 42)) (.ok (200, 42)) = true :=
  (false_positive_hit_verdicts ⟨200, 42⟩ (200, 42) (200, 42)).1 ⟨rfl, rfl⟩ _

/-- C10: a network exception in either probe request makes
`false_positive_hit` return `false`, i.e. the candidate is treated as a
real hit; the second-probe case is stated on the code path that reaches
the second probe (same status, different word count). -/
theorem false_positive_hit_exception_means_real_hit (seed : ProbeSeed)
    (t1 : Int × Nat) :
    (∀ p2, false_positive_hit seed (.error ()) p2 = false) ∧
    (t1.1 = seed.code → t1.2 ≠ seed.words →
      false_positive_hit seed (.ok t1) (.error ()) = false) := by
  constructor
  · intro p2
    rfl
  · intro h1 h2
    simp [false_positive_hit, h1, h2]

theorem false_positive_hit_exception_means_real_hit_witness :
    false_positive_hit ⟨200, 42⟩ (.ok (200, 7)) (.error ()) = false :=
  (false_positive_hit_exception_means_real_hit ⟨200, 42⟩ (200, 7)).2 rfl (by decide)

/-! ## Transport error handling (fuzzqueues.py, HttpQueue.__read_http_results)

One iteration of the result-reading loop: the pool yields
`(fuzz_result, requeue)`.  A requeued item goes back to the pool; a
result carrying an exception is thrown (via `_throw`, cancelling the
run) when `scanmode` is off, and sent downstream like any other result
otherwise. -/

inductive HttpReadAction where
  | requeue
  | throw_exception
  | send
  deriving Repr, DecidableEq

def read_http_result (scanmode : Bool) (requeue : Bool)
    (has_exception : Bool) : HttpReadAction :=
  if requeue then .requeue
  else if has_exception && !scanmode then .throw_exception
  else .send

/-- C6: a pool result carrying an exception is sent downstream exactly
like an exception-free result when `scanmode` is set, and is thrown
(cancelling the run) when `scanmode` is not set (`-Z`). -/
theorem read_http_result_exception_handling :
    read_http_result true false true = .send ∧
    read_http_result true false true = read_http_result true false false ∧
    read_http_result false false true = .throw_exception := by
  decide

/-! ## URL-seen cache

Modelled from the spec: `HttpCache` lives in
`externals/reqresp/cache.py`, which is absent from the provided sources.
Spec section 3 defines it as a set of URL keys partitioned by category
(`processed`, `recursion`) with an operation
`check_cache(key, category, update)` that tests membership, optionally
inserts, and returns the prior membership. -/

inductive CacheCategory where
  | processed
  | recursion
  deriving Repr, DecidableEq

structure HttpCacheState where
  processed : List String
  recursion : List String
  deriving Repr, DecidableEq

def check_cache (c : HttpCacheState) (url_key : String)
    (cache_type : CacheCategory) (update : Bool) : Bool × HttpCacheState :=
  match cache_type with
  | .processed =>
    let mem := c.processed.contains url_key
    (mem, if update && !mem then { c with processed := c.processed ++ [url_key] } else c)
  | .recursion =>
    let mem := c.recursion.contains url_key
    (mem, if update && !mem then { c with recursion := c.recursion ++ [url_key] } else c)

/-! ## Seed stage emission (fuzzqueues.py, SeedQueue.send_dictionary)

The URL a payload expands to is supplied as an oracle `url_of` (the
resfactory that builds a `FuzzResult` from the options and a payload
tuple is out of the embedded core).  `send_dictionary` first emits the
directory-root request for the empty payload, then checks whether the
compiled payload iterator is empty — raising
`FuzzExceptBadOptions("Empty dictionary! Please check payload or filter.")`
if so — then walks the iterator (stopping when cancelled) and finally
emits the `ENDSEED` item carrying the seed's priority via `send_last`. -/

inductive SeedSendEvent where
  | request (url : String)
  | endseed (priority : Nat)
  deriving Repr, DecidableEq

structure SeedEmitState where
  cache : HttpCacheState
  pending_fuzz : Nat
  events : List SeedSendEvent
  deriving Repr, DecidableEq

/-- One cache-guarded `send` of a request, bumping `pending_fuzz`. -/
def seed_send_request (st : SeedEmitState) (url : String) : SeedEmitState :=
  let r := check_cache st.cache url .processed true
  if r.1 then { st with cache := r.2 }
  else { cache := r.2
         pending_fuzz := st.pending_fuzz + 1
         events := st.events ++ [.request url] }

/-- The payload loop of `send_dictionary`; the cancellation flag is
checked before each emission. -/
def seed_send_words (cancelled : Bool) (url_of : String → String)
    (words : List String) (st : SeedEmitState) : SeedEmitState :=
  match words with
  | [] => st
  | w :: ws =>
    if cancelled then st
    else seed_send_words cancelled url_of ws (seed_send_request st (url_of w))

def send_dictionary (url_of : String → String) (dictio : List String)
    (cancelled : Bool) (seed_priority : Nat) (st : SeedEmitState) :
    Except String SeedEmitState :=
  let st1 := seed_send_request st (url_of "")
  match dictio with
  | [] => .error "Empty dictionary! Please check payload or filter."
  | w :: ws =>
    let st2 := seed_send_words cancelled url_of (w :: ws) st1
    .ok { st2 with events := st2.events ++ [.endseed seed_priority] }

/-- C8: when the compiled payload iterator yields no payload tuples,
`send_dictionary` raises the `FuzzExceptBadOptions` configuration error
reporting an empty dictionary instead of completing the seed (so no
`ENDSEED` is emitted). -/
theorem send_dictionary_empty_dictio_raises (url_of : String → String)
    (cancelled : Bool) (seed_priority : Nat) (st : SeedEmitState) :
    send_dictionary url_of [] cancelled seed_priority st =
      .error "Empty dictionary! Please check payload or filter." :=
  rfl

/-! ## Plugin executor (fuzzqueues.py, PluginExecutor.process_results)

The drain loop over the plugin results queue.  Plugin outputs are the
three `FuzzPlugin` shapes the loop distinguishes: an exception, a
message, or a seed (`BACKFEED`/`SEED`).  External collaborators are
oracles in the environment: the scope check
(`history.check_in_scope`), the false-positive probe outcome
(`RecursiveQ.false_positive_hit`, proved separately above), the
transport setting and the `cancel_on_plugin_except` config.  `_throw`
hands the exception to the queue manager and the loop continues, so it
is recorded in `thrown` rather than aborting the fold.  A `FuzzResult`'s
`url` is its `history`'s URL, so the two are one field here.  Terminal
colour codes in the finding messages are omitted. -/

inductive FuzzItemType where
  | STARTSEED | SEED | BACKFEED | RESULT | MESSAGE | ERROR | ENDSEED
  deriving Repr, DecidableEq

structure PluginSeedItem where
  item_type : FuzzItemType
  url : String
  backfeed_level : Nat
  deriving Repr, DecidableEq

inductive PluginOutput where
  | exception_output (name : String)
  | message_output (name : String) (visible : Bool) (text : String)
  | seed_output (name : String) (seed : PluginSeedItem)
  deriving Repr, DecidableEq

structure PluginExecEnv where
  transport_http : Bool
  in_scope : String → Bool
  fp_hit : String → Bool
  max_plugin_rlevel : Nat
  cancel_on_plugin_except : Bool

def requeue_limit : Nat := 15

def requeue_limit_message (name url : String) : String :=
  "Plugin " ++ name ++ ": This request has been requeued 15 times. " ++
    "Will not enqueue an additional request to " ++ url

structure PluginExecState where
  cache : HttpCacheState
  findings : List String
  sent : List PluginSeedItem
  /-- `queued_dict`: plugin name to (queued_requests, queued_seeds). -/
  queued : List (String × Nat × Nat)
  thrown : List String
  deriving Repr, DecidableEq

def bump_queued_requests (q : List (String × Nat × Nat)) (name : String) :
    List (String × Nat × Nat) :=
  q.map (fun e => if e.1 = name then (e.1, e.2.1 + 1, e.2.2) else e)

def bump_queued_seeds (q : List (String × Nat × Nat)) (name : String) :
    List (String × Nat × Nat) :=
  q.map (fun e => if e.1 = name then (e.1, e.2.1, e.2.2 + 1) else e)

/-- The final cache gate right before `send` (update=True); the seed is
sent only when the key was not yet cached. -/
def plugin_final_gate (ty : CacheCategory) (st : PluginExecState)
    (seed : PluginSeedItem) : PluginExecState :=
  let r := check_cache st.cache seed.url ty true
  if r.1 then { st with cache := r.2 }
  else { st with cache := r.2, sent := st.sent ++ [seed] }

/-- One iteration of the `process_results` drain loop. -/
def process_plugin_output (env : PluginExecEnv) (res_plugin_rlevel : Nat)
    (st : PluginExecState) (out : PluginOutput) : PluginExecState :=
  match out with
  | .exception_output name =>
    let st' := if env.cancel_on_plugin_except
      then { st with thrown := st.thrown ++ [name] } else st
    { st' with findings := st'.findings ++ ["exception from " ++ name] }
  | .message_output name visible text =>
    if text ≠ "" ∧ visible then
      { st with findings := st.findings ++ ["Plugin " ++ name ++ ": " ++ text] }
    else st
  | .seed_output name seed =>
    if ¬env.transport_http then st
    else if ¬env.in_scope seed.url then st
    else match seed.item_type with
      | .BACKFEED =>
        if (check_cache st.cache seed.url .processed false).1 then st
        else if seed.backfeed_level ≥ requeue_limit then
          { st with findings := st.findings ++ [requeue_limit_message name seed.url] }
        else
          plugin_final_gate .processed
            { st with queued := bump_queued_requests st.queued name } seed
      | .SEED =>
        if (check_cache st.cache seed.url .recursion false).1 then st
        else if res_plugin_rlevel ≥ env.max_plugin_rlevel then st
        else if env.fp_hit seed.url then st
        else
          plugin_final_gate .recursion
            { st with queued := bump_queued_seeds st.queued name } seed
      | _ => st

def plugin_summary_findings (queued : List (String × Nat × Nat)) : List String :=
  queued.foldl (fun acc e =>
    let acc' := if e.2.1 > 0 then
      acc ++ ["Plugin " ++ e.1 ++ ": Enqueued " ++ toString e.2.1 ++ " request(s)"]
      else acc
    if e.2.2 > 0 then
      acc' ++ ["Plugin " ++ e.1 ++ ": Enqueued " ++ toString e.2.2 ++ " seed(s)"]
      else acc') []

/-- `PluginExecutor.process_results`: drain every plugin output, then
append the per-plugin summary findings. -/
def process_results (env : PluginExecEnv) (res_plugin_rlevel : Nat)
    (validated : List String) (outputs : List PluginOutput)
    (cache : HttpCacheState) : PluginExecState :=
  let st0 : PluginExecState :=
    { cache := cache
      findings := []
      sent := []
      queued := validated.map (fun n => (n, 0, 0))
      thrown := [] }
  let st := outputs.foldl (process_plugin_output env res_plugin_rlevel) st0
  { st with findings := st.findings ++ plugin_summary_findings st.queued }

/-- Every seed in `sent` that is a `BACKFEED` has `backfeed_level`
strictly below the requeue limit. -/
def SentBackfeedBounded (st : PluginExecState) : Prop :=
  ∀ s ∈ st.sent, s.item_type = .BACKFEED → s.backfeed_level < requeue_limit

lemma sentBackfeedBounded_step (env : PluginExecEnv) (rl : Nat)
    (st : PluginExecState) (out : PluginOutput) (h : SentBackfeedBounded st) :
    SentBackfeedBounded (process_plugin_output env rl st out) := by
  match out with
  | .exception_output name =>
    intro s hs
    simp only [process_plugin_output] at hs
    split at hs <;> exact h s hs
  | .message_output name visible text =>
    intro s hs
    simp only [process_plugin_output] at hs
    split at hs <;> exact h s hs
  | .seed_output name seed =>
    intro s hs hty
    simp only [process_plugin_output] at hs
    split at hs
    · exact h s hs hty
    split at hs
    · exact h s hs hty
    split at hs
    next heq =>
      split at hs
      · exact h s hs hty
      next hnc =>
        split at hs
        · exact h s hs hty
        next hlvl =>
          simp only [plugin_final_gate] at hs
          split at hs
          · exact h s hs hty
          · simp only [List.mem_append, List.mem_singleton] at hs
            rcases hs with hs | hs
            · exact h s hs hty
            · subst hs
              omega
    next heq =>
      split at hs
      · exact h s hs hty
      split at hs
      · exact h s hs hty
      split at hs
      · exact h s hs hty
      simp only [plugin_final_gate] at hs
      split at hs
      · exact h s hs hty
      · simp only [List.mem_append, List.mem_singleton] at hs
        rcases hs with hs | hs
        · exact h s hs hty
        · subst hs
          rw [heq] at hty
          cases hty
    next hne1 hne2 =>
      exact h s hs hty

lemma sentBackfeedBounded_fold (env : PluginExecEnv) (rl : Nat)
    (outputs : List PluginOutput) (st : PluginExecState)
    (h : SentBackfeedBounded st) :
    SentBackfeedBounded (outputs.foldl (process_plugin_output env rl) st) := by
  induction outputs generalizing st with
  | nil => exact h
  | cons o os ih => exact ih _ (sentBackfeedBounded_step env rl st o h)

/-- C4: the requeue limit of 15 on plugin-produced `BACKFEED` seeds.
First conjunct: at the gate (in scope, not cached), a backfeed whose
`backfeed_level` has reached 15 is not enqueued and the informational
finding is appended to the originating result instead.  Second conjunct:
across a whole `process_results` run, every enqueued `BACKFEED` has
`backfeed_level` strictly below 15 (hence at most 15). -/
theorem plugin_backfeed_requeue_limit (env : PluginExecEnv) (rl : Nat)
    (name : String) (seed : PluginSeedItem) (st : PluginExecState)
    (validated : List String) (outputs : List PluginOutput)
    (cache : HttpCacheState) :
    (seed.item_type = .BACKFEED → env.transport_http = true →
      env.in_scope seed.url = true →
      (check_cache st.cache seed.url .processed false).1 = false →
      seed.backfeed_level ≥ 15 →
      process_plugin_output env rl st (.seed_output name seed) =
        { st with findings := st.findings ++ [requeue_limit_message name seed.url] }) ∧
    (∀ s ∈ (process_results env rl validated outputs cache).sent,
      s.item_type = .BACKFEED → s.backfeed_level ≤ 15 ∧ s.backfeed_level < 15) := by
  constructor
  · intro hty htr hsc hnc hlvl
    simp [process_plugin_output, htr, hsc, hty, hnc, requeue_limit, hlvl]
  · intro s hs hty
    have hbound : SentBackfeedBounded
        (outputs.foldl (process_plugin_output env rl)
          { cache := cache, findings := [], sent := [],
            queued := validated.map (fun n => (n, 0, 0)), thrown := [] }) := by
      apply sentBackfeedBounded_fold
      intro x hx
      simp at hx
    have hs' : s ∈ (outputs.foldl (process_plugin_output env rl)
        { cache := cache, findings := [], sent := [],
          queued := validated.map (fun n => (n, 0, 0)), thrown := [] }).sent := hs
    have := hbound s hs' hty
    simp only [requeue_limit] at this
    omega

theorem plugin_backfeed_requeue_limit_witness :
    process_plugin_output
      ⟨true, fun _ => true, fun _ => false, 1, false⟩ 0
      { cache := ⟨[], []⟩, findings := [], sent := [], queued := [], thrown := [] }
      (.seed_output "p" ⟨.BACKFEED, "http://h/x", 15⟩) =
      { cache := ⟨[], []⟩, findings := [requeue_limit_message "p" "http://h/x"],
        sent := [], queued := [], thrown := [] } :=
  (plugin_backfeed_requeue_limit ⟨true, fun _ => true, fun _ => false, 1, false⟩ 0
    "p" ⟨.BACKFEED, "http://h/x", 15⟩
    { cache := ⟨[], []⟩, findings := [], sent := [], queued := [], thrown := [] }
    [] [] ⟨[], []⟩).1 rfl rfl rfl rfl (by decide)

/-! ## Auto-filter stage (fuzzqueues.py, AutofilterQ)

`AutofilterQ` keeps a `FuzzResFilter` whose `filter_string` starts out
`None` and grows by AND-joining `not (<identifier>)` clauses, plus a
`FixSizeOrderedDict` tracking identifier counts.

Modelled from the spec (files absent from the provided sources):
`FixSizeOrderedDict` (`helpers/obj_dic.py`) is a bounded
insertion-ordered map of maximum length 15 that evicts the oldest entry
on overflow; `BaseFilter.is_visible` (`filters/base_filter.py`) is the
negation of `is_filtered`; `ERROR_CODE` (`facade.py`) is the sentinel
status of errored requests, distinct from any real HTTP status.

The only filter strings this stage ever evaluates are AND-joins of
`not (c=<code> and l=<lines> and w=<words>)` clauses, so the filter is
carried both as the literal string and as the structured clause list the
parse of that string yields; evaluation follows
`complexfilter.py`: `=` compares the stringified operands, `not` and
`and` combine the clause values, and `is_filtered` negates the formula
value. -/

def ERROR_CODE : Int := -1

structure AFResult where
  code : Int
  lines : Nat
  words : Nat
  method : String
  deriving Repr, DecidableEq

def response_identifier (r : AFResult) : String :=
  "c=" ++ toString r.code ++ " and l=" ++ toString r.lines ++
    " and w=" ++ toString r.words

/-- Value of one `not (c=X and l=Y and w=Z)` clause on a result, with
`=` being string equality of the stringified operands as in
`FuzzResFilter.__compute_expr`. -/
def af_clause_value (r : AFResult) (cl : Int × Nat × Nat) : Bool :=
  !(toString r.code == toString cl.1 && toString r.lines == toString cl.2.1 &&
    toString r.words == toString cl.2.2)

/-- Formula value of the AND-joined clauses; `is_visible` of the live
auto-filter. -/
def af_is_visible (clauses : List (Int × Nat × Nat)) (r : AFResult) : Bool :=
  clauses.all (af_clause_value r)

def tracker_lookup (t : List (String × Nat)) (k : String) : Option Nat :=
  (t.find? (fun e => e.1 == k)).map (fun e => e.2)

def tracker_set (t : List (String × Nat)) (k : String) (v : Nat) :
    List (String × Nat) :=
  t.map (fun e => if e.1 == k then (e.1, v) else e)

def tracker_pop (t : List (String × Nat)) (k : String) : List (String × Nat) :=
  t.filter (fun e => !(e.1 == k))

def tracker_move_to_end (t : List (String × Nat)) (k : String) :
    List (String × Nat) :=
  match t.find? (fun e => e.1 == k) with
  | none => t
  | some e => tracker_pop t k ++ [e]

def tracker_insert_new (t : List (String × Nat)) (k : String) (v : Nat) :
    List (String × Nat) :=
  if t.length ≥ 15 then t.drop 1 ++ [(k, v)] else t ++ [(k, v)]

structure AutofilterState where
  filter_string : Option String
  filter_clauses : List (Int × Nat × Nat)
  tracker : List (String × Nat)
  findings : List String
  deriving Repr, DecidableEq

def initial_autofilter_state : AutofilterState := ⟨none, [], [], []⟩

/-- `AutofilterQ.update_filter`: append `not (<identifier>)` to the live
filter (AND-joined if one exists) and attach the informational finding. -/
def af_update_filter (st : AutofilterState) (r : AFResult) (id : String) :
    AutofilterState :=
  let fs := "not (" ++ id ++ ")"
  let redirect_string :=
    if 300 ≤ r.code ∧ r.code < 400 then
      ". Redirects will still be followed in the background." else ""
  let finding := "Recurring response detected. Filtering out " ++ id ++ redirect_string
  match st.filter_string with
  | none =>
    { st with filter_string := some fs
              filter_clauses := [(r.code, r.lines, r.words)]
              findings := st.findings ++ [finding] }
  | some old =>
    { st with filter_string := some (old ++ " and " ++ fs)
              filter_clauses := st.filter_clauses ++ [(r.code, r.lines, r.words)]
              findings := st.findings ++ [finding] }

/-- `AutofilterQ.update_response_tracker`. -/
def update_response_tracker (st : AutofilterState) (r : AFResult) :
    AutofilterState :=
  let id := response_identifier r
  match tracker_lookup st.tracker id with
  | some n =>
    let t1 := tracker_set st.tracker id (n + 1)
    if n + 1 ≥ 10 then
      let st' := af_update_filter st r id
      { st' with tracker := tracker_pop t1 id }
    else
      { st with tracker := tracker_move_to_end t1 id }
  | none =>
    { st with tracker := tracker_insert_new st.tracker id 1 }

inductive AFAction where
  | send
  | discard
  deriving Repr, DecidableEq

/-- `AutofilterQ.process`. -/
def autofilter_process (st : AutofilterState) (r : AFResult) :
    AFAction × AutofilterState :=
  if (r.method == "HEAD" && r.code == 200) || r.code == ERROR_CODE then
    (.send, st)
  else if st.filter_string.getD "" == "" || af_is_visible st.filter_clauses r then
    (.send, update_response_tracker st r)
  else
    (.discard, st)

def run_autofilter (st : AutofilterState) (rs : List AFResult) :
    List AFAction × AutofilterState :=
  match rs with
  | [] => ([], st)
  | r :: rest =>
    let p := autofilter_process st r
    let q := run_autofilter p.2 rest
    (p.1 :: q.1, q.2)

/-- C2 counterexample: for 20 identical `code=200, lines=5, words=42`
results the claim says the 10th result (index 9) is already discarded;
the code sends it, because `process` checks the filter before
`update_response_tracker` installs the new clause, and only the 11th
result onward is discarded. -/
theorem autofilter_tenth_result_is_sent :
    ((run_autofilter initial_autofilter_state
        (List.replicate 20 ⟨200, 5, 42, "GET"⟩)).1.getD 9 .discard) = .send := by
  decide

/-- C2 amended: for a stream of 20 results with identical
`code=200, lines=5, words=42` (no HEAD/200, no errors) the first 10 are
sent visible, every result from the 11th onward is discarded, and after
convergence the live filter string is exactly
`not (c=200 and l=5 and w=42)` (in particular it contains it). -/
theorem autofilter_convergence_on_twenty_identical :
    (run_autofilter initial_autofilter_state
        (List.replicate 20 ⟨200, 5, 42, "GET"⟩)).1 =
      List.replicate 10 .send ++ List.replicate 10 .discard ∧
    (run_autofilter initial_autofilter_state
        (List.replicate 20 ⟨200, 5, 42, "GET"⟩)).2.filter_string =
      some "not (c=200 and l=5 and w=42)" := by
  constructor <;> decide

/-! ## Main filter and pre-filter stages (fuzzqueues.py, FilterQ / SliceQ)

`FilterQ.process` calls `set_baseline` on baseline results, then sends
when `is_visible(result) or result.is_baseline` holds; `SliceQ.process`
sends when `result.is_baseline or is_visible(result)` holds.  The
attached filter's verdict is an oracle argument of type
`Except Unit Bool` (`.error` standing for a raised filter exception);
Python's `or` is short-circuiting, so in `SliceQ` the verdict is not
consulted at all for a baseline result, which the embedding reflects by
returning `send` even when the verdict oracle is an error.

Modelled from the spec: `set_baseline` lives in
`filters/base_filter.py`, absent from the provided sources; per spec
section 4.8 it stores the baseline result's metrics for `BBB`
references. -/

structure FilterQResult where
  is_baseline : Bool
  code : Int
  lines : Nat
  words : Nat
  deriving Repr, DecidableEq

inductive FilterAction where
  | send
  | discard
  deriving Repr, DecidableEq

structure FilterQState where
  baseline : Option FilterQResult
  deriving Repr, DecidableEq

def filterq_process (st : FilterQState) (r : FilterQResult)
    (verdict : Except Unit Bool) : Except Unit (FilterAction × FilterQState) :=
  let st' := if r.is_baseline then { baseline := some r } else st
  match verdict with
  | .error e => .error e
  | .ok v => if v || r.is_baseline then .ok (.send, st') else .ok (.discard, st')

def sliceq_process (r : FilterQResult) (verdict : Except Unit Bool) :
    Except Unit FilterAction :=
  if r.is_baseline then .ok .send
  else
    match verdict with
    | .error e => .error e
    | .ok true => .ok .send
    | .ok false => .ok .discard

/-- C9: a baseline result is never discarded.  `FilterQ` stores its
metrics via `set_baseline` and forwards it even when `is_visible`
returns `false`; `SliceQ` forwards it without evaluating the prefilter
verdict (the outcome is `send` whatever the verdict oracle is, even a
raised exception). -/
theorem baseline_never_discarded (st : FilterQState) (r : FilterQResult)
    (verdict : Except Unit Bool) :
    (r.is_baseline = true →
      filterq_process st r (.ok false) = .ok (.send, ⟨some r⟩)) ∧
    (r.is_baseline = true → sliceq_process r verdict = .ok .send) := by
  constructor
  · intro hb
    simp [filterq_process, hb]
  · intro hb
    simp [sliceq_process, hb]

theorem baseline_never_discarded_witness :
    filterq_process ⟨none⟩ ⟨true, 200, 5, 42⟩ (.ok false) =
        .ok (.send, ⟨some ⟨true, 200, 5, 42⟩⟩) ∧
      sliceq_process ⟨true, 200, 5, 42⟩ (.error ()) = .ok .send :=
  ⟨(baseline_never_discarded ⟨none⟩ ⟨true, 200, 5, 42⟩ (.error ())).1 rfl,
   (baseline_never_discarded ⟨none⟩ ⟨true, 200, 5, 42⟩ (.error ())).2 rfl⟩

/-! ## Filter expression language (filters/complexfilter.py, FuzzResFilter)

Embedded fragment of the expression mini-language: integer and quoted
string literals, result symbols, the operator calls `upper`, `lower` and
`unique` (the latter keyed on the byte offset of the call in the source
expression and backed by the persistent `self._cache` of the compiled
filter), the comparison operators `=`/`==`, `!=`, `<`, `>`, `<=`, `>=`,
`~`, `!~` and the assigning operators `:=`, `=+`, `=-`, plus `not`,
`and`, `or`.  Values are Python's dynamic values restricted to the types
the fragment produces (int, str, bool).  Following
`FuzzResFilter.__compute_expr`, `=`/`==` compare the stringified
operands, the order comparisons coerce both sides with `int(...)`, `~`
is case-insensitive substring containment, `and`/`or` combine computed
values as in `__myreduce` (parse actions for both operands always run),
and every assignment returns `True`.  The assignment target is the
field named by the left-hand term, as collected through the `stack` of
`_get_field_value`; `rsetattr` (from `helpers/obj_dyn.py`, absent from
the provided sources) is modelled from the spec: `:=` stores the
right-hand value, `=+` stores `old + new`, and `=-` stores `new + old`
for strings (the spec retains the `y + x` order literally) and
`old - new` for numbers.  `is_filtered` negates the formula value;
evaluation errors raise. -/

inductive FVal where
  | vint (n : Int)
  | vstr (s : String)
  | vbool (b : Bool)
  deriving Repr, DecidableEq

def pyStr : FVal → String
  | .vint n => toString n
  | .vstr s => s
  | .vbool b => if b then "True" else "False"

def pyInt : FVal → Except Unit Int
  | .vint n => .ok n
  | .vbool b => .ok (if b then 1 else 0)
  | .vstr s =>
    match s.toInt? with
    | some n => .ok n
    | none => .error ()

def truthy : FVal → Bool
  | .vint n => decide (n ≠ 0)
  | .vstr s => !(s == "")
  | .vbool b => b

def pyNe : FVal → FVal → Bool
  | .vint a, .vint b => decide (a ≠ b)
  | .vstr a, .vstr b => decide (a ≠ b)
  | .vbool a, .vbool b => decide (a ≠ b)
  | .vint a, .vbool b => decide (a ≠ (if b then 1 else 0))
  | .vbool a, .vint b => decide ((if a then (1 : Int) else 0) ≠ b)
  | _, _ => true

def pyAdd : FVal → FVal → Except Unit FVal
  | .vint a, .vint b => .ok (.vint (a + b))
  | .vstr a, .vstr b => .ok (.vstr (a ++ b))
  | .vint a, .vbool b => .ok (.vint (a + (if b then 1 else 0)))
  | .vbool a, .vint b => .ok (.vint ((if a then 1 else 0) + b))
  | .vbool a, .vbool b => .ok (.vint ((if a then 1 else 0) + (if b then 1 else 0)))
  | _, _ => .error ()

def pySub : FVal → FVal → Except Unit FVal
  | .vint a, .vint b => .ok (.vint (a - b))
  | .vint a, .vbool b => .ok (.vint (a - (if b then 1 else 0)))
  | .vbool a, .vint b => .ok (.vint ((if a then 1 else 0) - b))
  | .vbool a, .vbool b => .ok (.vint ((if a then 1 else 0) - (if b then 1 else 0)))
  | _, _ => .error ()

def chars_start_with : List Char → List Char → Bool
  | [], _ => true
  | _ :: _, [] => false
  | a :: as, b :: bs => a == b && chars_start_with as bs

def chars_within (needle : List Char) : List Char → Bool
  | [] => needle.isEmpty
  | c :: cs => chars_start_with needle (c :: cs) || chars_within needle cs

def str_contains_ci (hay needle : String) : Bool :=
  chars_within needle.toLower.toList hay.toLower.toList

inductive FField where
  | code | lines | words | chars | content
  deriving Repr, DecidableEq

structure FilterResState where
  code : FVal
  lines : FVal
  words : FVal
  chars : FVal
  content : FVal
  deriving Repr, DecidableEq

def get_field (r : FilterResState) : FField → FVal
  | .code => r.code
  | .lines => r.lines
  | .words => r.words
  | .chars => r.chars
  | .content => r.content

def set_field (r : FilterResState) : FField → FVal → FilterResState
  | .code, v => { r with code := v }
  | .lines, v => { r with lines := v }
  | .words, v => { r with words := v }
  | .chars, v => { r with chars := v }
  | .content, v => { r with content := v }

/-- Evaluation state of a compiled filter: the bound result and the
`self._cache` map (location key of the operator call to the set of
values already seen by `unique`). -/
structure FilterState where
  res : FilterResState
  cache : List (Nat × List FVal)
  deriving Repr, DecidableEq

def set_state_field (st : FilterState) (f : FField) (v : FVal) : FilterState :=
  { st with res := set_field st.res f v }

def cache_seen (c : List (Nat × List FVal)) (loc : Nat) : List FVal :=
  ((c.find? (fun e => e.1 == loc)).map (fun e => e.2)).getD []

def cache_add (c : List (Nat × List FVal)) (loc : Nat) (v : FVal) :
    List (Nat × List FVal) :=
  if (c.find? (fun e => e.1 == loc)).isSome then
    c.map (fun e => if e.1 == loc then (e.1, e.2 ++ [v]) else e)
  else
    c ++ [(loc, [v])]

inductive FTerm where
  | int_lit (n : Int)
  | str_lit (s : String)
  | field (f : FField)
  | op_upper (t : FTerm)
  | op_lower (t : FTerm)
  | op_unique (loc : Nat) (t : FTerm)
  deriving Repr, DecidableEq

inductive CmpOp where
  | eq | ne | lt_op | gt_op | le_op | ge_op
  | contains_op | ncontains_op
  | assign | add_assign | sub_assign
  deriving Repr, DecidableEq

inductive FExpr where
  | term (t : FTerm)
  | cmp (l : FTerm) (op : CmpOp) (r : FTerm)
  | not_e (e : FExpr)
  | and_e (l r : FExpr)
  | or_e (l r : FExpr)
  deriving Repr, DecidableEq

def eval_term : FTerm → FilterState → Except Unit (FVal × FilterState)
  | .int_lit n, st => .ok (.vint n, st)
  | .str_lit s, st => .ok (.vstr s, st)
  | .field f, st => .ok (get_field st.res f, st)
  | .op_upper t, st =>
    match eval_term t st with
    | .error e => .error e
    | .ok (.vstr s, st') => .ok (.vstr s.toUpper, st')
    | .ok (_, _) => .error ()
  | .op_lower t, st =>
    match eval_term t st with
    | .error e => .error e
    | .ok (.vstr s, st') => .ok (.vstr s.toLower, st')
    | .ok (_, _) => .error ()
  | .op_unique loc t, st =>
    match eval_term t st with
    | .error e => .error e
    | .ok (v, st') =>
      if v ∈ cache_seen st'.cache loc then .ok (.vbool false, st')
      else .ok (.vbool true, { st' with cache := cache_add st'.cache loc v })

def field_target : FTerm → Option FField
  | .field f => some f
  | _ => none

def cmp_int (f : Int → Int → Bool) (lv rv : FVal) (st : FilterState) :
    Except Unit (FVal × FilterState) :=
  match pyInt lv, pyInt rv with
  | .ok a, .ok b => .ok (.vbool (f a b), st)
  | _, _ => .error ()

def apply_cmp (l : FTerm) (op : CmpOp) (lv rv : FVal) (st : FilterState) :
    Except Unit (FVal × FilterState) :=
  match op with
  | .eq => .ok (.vbool (pyStr lv == pyStr rv), st)
  | .ne => .ok (.vbool (pyNe lv rv), st)
  | .lt_op => cmp_int (fun a b => decide (a < b)) lv rv st
  | .gt_op => cmp_int (fun a b => decide (a > b)) lv rv st
  | .le_op => cmp_int (fun a b => decide (a ≤ b)) lv rv st
  | .ge_op => cmp_int (fun a b => decide (a ≥ b)) lv rv st
  | .contains_op =>
    match lv, rv with
    | .vstr s, .vstr r => .ok (.vbool (str_contains_ci s r), st)
    | _, _ => .error ()
  | .ncontains_op =>
    match lv, rv with
    | .vstr s, .vstr r => .ok (.vbool (!str_contains_ci s r), st)
    | _, _ => .error ()
  | .assign =>
    match field_target l with
    | some f => .ok (.vbool true, set_state_field st f rv)
    | none => .error ()
  | .add_assign =>
    match field_target l with
    | some f =>
      match pyAdd (get_field st.res f) rv with
      | .error e => .error e
      | .ok nv => .ok (.vbool true, set_state_field st f nv)
    | none => .error ()
  | .sub_assign =>
    match field_target l with
    | some f =>
      match rv with
      | .vstr s =>
        match get_field st.res f with
        | .vstr olds => .ok (.vbool true, set_state_field st f (.vstr (s ++ olds)))
        | _ => .error ()
      | _ =>
        match pySub (get_field st.res f) rv with
        | .error e => .error e
        | .ok nv => .ok (.vbool true, set_state_field st f nv)
    | none => .error ()

def eval_expr : FExpr → FilterState → Except Unit (FVal × FilterState)
  | .term t, st => eval_term t st
  | .cmp l op r, st =>
    match eval_term l st with
    | .error e => .error e
    | .ok (lv, st1) =>
      match eval_term r st1 with
      | .error e => .error e
      | .ok (rv, st2) => apply_cmp l op lv rv st2
  | .not_e e, st =>
    match eval_expr e st with
    | .error er => .error er
    | .ok (v, st') => .ok (.vbool (!truthy v), st')
  | .and_e l r, st =>
    match eval_expr l st with
    | .error er => .error er
    | .ok (a, st1) =>
      match eval_expr r st1 with
      | .error er => .error er
      | .ok (b, st2) => .ok (if truthy a then b else a, st2)
  | .or_e l r, st =>
    match eval_expr l st with
    | .error er => .error er
    | .ok (a, st1) =>
      match eval_expr r st1 with
      | .error er => .error er
      | .ok (b, st2) => .ok (if truthy a then a else b, st2)

/-- `FuzzResFilter.is_filtered`: parse and evaluate the formula on the
bound result, then negate its truth value.  The compiled filter's state
(`self._cache` and the mutated result) persists across calls. -/
def is_filtered (e : FExpr) (st : FilterState) :
    Except Unit (Bool × FilterState) :=
  match eval_expr e st with
  | .error er => .error er
  | .ok (v, st') => .ok (!truthy v, st')

/-- C7 counterexample: the expression `content|unique()` evaluated twice
on the same result by the same compiled filter yields two different
verdicts, because `unique` records the value in the compiled filter's
persistent `_cache`: the first call returns visible
(`is_filtered = false`), the second filtered (`is_filtered = true`). -/
theorem filter_unique_second_eval_differs :
    (is_filtered (.term (.op_unique 0 (.field .content)))
        ⟨⟨.vint 200, .vint 5, .vint 42, .vint 100, .vstr "x"⟩, []⟩ =
      .ok (false,
        ⟨⟨.vint 200, .vint 5, .vint 42, .vint 100, .vstr "x"⟩,
          [(0, [.vstr "x"])]⟩)) ∧
    (is_filtered (.term (.op_unique 0 (.field .content)))
        ⟨⟨.vint 200, .vint 5, .vint 42, .vint 100, .vstr "x"⟩,
          [(0, [.vstr "x"])]⟩ =
      .ok (true,
        ⟨⟨.vint 200, .vint 5, .vint 42, .vint 100, .vstr "x"⟩,
          [(0, [.vstr "x"])]⟩)) := by
  constructor <;> rfl

/-- Terms whose evaluation cannot touch the filter state (no `unique`
operator call). -/
def stateless_term : FTerm → Bool
  | .int_lit _ => true
  | .str_lit _ => true
  | .field _ => true
  | .op_upper t => stateless_term t
  | .op_lower t => stateless_term t
  | .op_unique _ _ => false

/-- Expressions whose evaluation cannot touch the filter state (no
`unique` operator call and no assigning comparison operator). -/
def stateless_expr : FExpr → Bool
  | .term t => stateless_term t
  | .cmp l op r =>
    stateless_term l && stateless_term r &&
      !(op == .assign || op == .add_assign || op == .sub_assign)
  | .not_e e => stateless_expr e
  | .and_e l r => stateless_expr l && stateless_expr r
  | .or_e l r => stateless_expr l && stateless_expr r

lemma eval_term_stateless (t : FTerm) (h : stateless_term t = true) :
    ∀ st v st', eval_term t st = .ok (v, st') → st' = st := by
  induction t with
  | int_lit n =>
    intro st v st' he
    simp only [eval_term, Except.ok.injEq, Prod.mk.injEq] at he
    exact he.2.symm
  | str_lit s =>
    intro st v st' he
    simp only [eval_term, Except.ok.injEq, Prod.mk.injEq] at he
    exact he.2.symm
  | field f =>
    intro st v st' he
    simp only [eval_term, Except.ok.injEq, Prod.mk.injEq] at he
    exact he.2.symm
  | op_upper t ih =>
    intro st v st' he
    simp only [eval_term] at he
    split at he
    · exact absurd he (by simp)
    next s st0 heq =>
      simp only [Except.ok.injEq, Prod.mk.injEq] at he
      rw [← he.2]
      exact ih h st _ _ heq
    · exact absurd he (by simp)
  | op_lower t ih =>
    intro st v st' he
    simp only [eval_term] at he
    split at he
    · exact absurd he (by simp)
    next s st0 heq =>
      simp only [Except.ok.injEq, Prod.mk.injEq] at he
      rw [← he.2]
      exact ih h st _ _ heq
    · exact absurd he (by simp)
  | op_unique loc t ih =>
    simp [stateless_term] at h

lemma apply_cmp_stateless (l : FTerm) (op : CmpOp) (lv rv : FVal)
    (st : FilterState) (v : FVal) (st' : FilterState)
    (hop : (op == .assign || op == .add_assign || op == .sub_assign) = false)
    (he : apply_cmp l op lv rv st = .ok (v, st')) : st' = st := by
  cases op with
  | eq =>
    simp only [apply_cmp, Except.ok.injEq, Prod.mk.injEq] at he
    exact he.2.symm
  | ne =>
    simp only [apply_cmp, Except.ok.injEq, Prod.mk.injEq] at he
    exact he.2.symm
  | lt_op =>
    simp only [apply_cmp, cmp_int] at he
    split at he
    · simp only [Except.ok.injEq, Prod.mk.injEq] at he
      exact he.2.symm
    · exact absurd he (by simp)
  | gt_op =>
    simp only [apply_cmp, cmp_int] at he
    split at he
    · simp only [Except.ok.injEq, Prod.mk.injEq] at he
      exact he.2.symm
    · exact absurd he (by simp)
  | le_op =>
    simp only [apply_cmp, cmp_int] at he
    split at he
    · simp only [Except.ok.injEq, Prod.mk.injEq] at he
      exact he.2.symm
    · exact absurd he (by simp)
  | ge_op =>
    simp only [apply_cmp, cmp_int] at he
    split at he
    · simp only [Except.ok.injEq, Prod.mk.injEq] at he
      exact he.2.symm
    · exact absurd he (by simp)
  | contains_op =>
    simp only [apply_cmp] at he
    split at he
    · simp only [Except.ok.injEq, Prod.mk.injEq] at he
      exact he.2.symm
    · exact absurd he (by simp)
  | ncontains_op =>
    simp only [apply_cmp] at he
    split at he
    · simp only [Except.ok.injEq, Prod.mk.injEq] at he
      exact he.2.symm
    · exact absurd he (by simp)
  | assign => simp at hop
  | add_assign => simp at hop
  | sub_assign => simp at hop

lemma eval_expr_stateless (e : FExpr) (h : stateless_expr e = true) :
    ∀ st v st', eval_expr e st = .ok (v, st') → st' = st := by
  induction e with
  | term t =>
    intro st v st' he
    exact eval_term_stateless t h st v st' he
  | cmp l op r =>
    intro st v st' he
    simp only [stateless_expr, Bool.and_eq_true] at h
    obtain ⟨⟨hl, hr⟩, hop⟩ := h
    rw [Bool.not_eq_eq_eq_not, Bool.not_true] at hop
    simp only [eval_expr] at he
    split at he
    · exact absurd he (by simp)
    next lv st1 heq1 =>
      split at he
      · exact absurd he (by simp)
      next rv st2 heq2 =>
        have h2 := apply_cmp_stateless l op lv rv st2 v st' hop he
        have h1 := eval_term_stateless r hr st1 rv st2 heq2
        have h0 := eval_term_stateless l hl st lv st1 heq1
        rw [h2, h1, h0]
  | not_e e ih =>
    intro st v st' he
    simp only [eval_expr] at he
    split at he
    · exact absurd he (by simp)
    next v0 st0 heq =>
      simp only [Except.ok.injEq, Prod.mk.injEq] at he
      rw [← he.2]
      exact ih h st _ _ heq
  | and_e l r ihl ihr =>
    intro st v st' he
    simp only [stateless_expr, Bool.and_eq_true] at h
    simp only [eval_expr] at he
    split at he
    · exact absurd he (by simp)
    next a st1 heq1 =>
      split at he
      · exact absurd he (by simp)
      next b st2 heq2 =>
        simp only [Except.ok.injEq, Prod.mk.injEq] at he
        rw [← he.2]
        rw [ihr h.2 st1 _ _ heq2]
        exact ihl h.1 st _ _ heq1
  | or_e l r ihl ihr =>
    intro st v st' he
    simp only [stateless_expr, Bool.and_eq_true] at h
    simp only [eval_expr] at he
    split at he
    · exact absurd he (by simp)
    next a st1 heq1 =>
      split at he
      · exact absurd he (by simp)
      next b st2 heq2 =>
        simp only [Except.ok.injEq, Prod.mk.injEq] at he
        rw [← he.2]
        rw [ihr h.2 st1 _ _ heq2]
        exact ihl h.1 st _ _ heq1

/-- C7 amended: evaluation is idempotent for every expression of the
fragment that uses neither the stateful `unique` operator call nor an
assigning operator (`:=`, `=+`, `=-`): such an evaluation leaves the
compiled filter's state untouched, so a second evaluation on the same
result returns the same verdict.  Expressions with `unique` can flip
their verdict between two evaluations (see the counterexample). -/
theorem filter_eval_idempotent_when_stateless (e : FExpr) (st : FilterState)
    (b : Bool) (st' : FilterState) (h : stateless_expr e = true)
    (h2 : is_filtered e st = .ok (b, st')) :
    st' = st ∧ is_filtered e st' = .ok (b, st') := by
  simp only [is_filtered] at h2
  have hst : st' = st := by
    split at h2
    · exact absurd h2 (by simp)
    next v0 st0 heq =>
      simp only [Except.ok.injEq, Prod.mk.injEq] at h2
      rw [← h2.2]
      exact eval_expr_stateless e h st v0 st0 heq
  refine ⟨hst, ?_⟩
  rw [hst]
  simp only [is_filtered]
  split at h2
  · exact absurd h2 (by simp)
  next v0 st0 heq =>
    rw [← hst]
    exact h2

theorem filter_eval_idempotent_when_stateless_witness :
    stateless_expr (.cmp (.field .code) .eq (.int_lit 200)) = true ∧
    (⟨⟨.vint 200, .vint 5, .vint 42, .vint 100, .vstr "x"⟩, []⟩ : FilterState) =
        ⟨⟨.vint 200, .vint 5, .vint 42, .vint 100, .vstr "x"⟩, []⟩ ∧
      is_filtered (.cmp (.field .code) .eq (.int_lit 200))
          ⟨⟨.vint 200, .vint 5, .vint 42, .vint 100, .vstr "x"⟩, []⟩ =
        .ok (false, ⟨⟨.vint 200, .vint 5, .vint 42, .vint 100, .vstr "x"⟩, []⟩) :=
  ⟨by decide,
   filter_eval_idempotent_when_stateless
     (.cmp (.field .code) .eq (.int_lit 200))
     ⟨⟨.vint 200, .vint 5, .vint 42, .vint 100, .vstr "x"⟩, []⟩
     false
     ⟨⟨.vint 200, .vint 5, .vint 42, .vint 100, .vstr "x"⟩, []⟩
     (by decide) rfl⟩
